import Mathlib

/-!
Shallow embedding of the directive-evaluation core in
`src/src/library/layout.rs`: the value model, the argument binder, the
casting rules, and the `page`, `align`, `pad`, `stack`, `grid` directives.
Machinery that only has callers in the visible source (the `Args` binder,
the `Value` union, `Paper`, `Align`) is modelled from the specification;
everything else is translated directly from the Rust source.
-/

/-- Absolute distances (`Length`) are modelled as abstract integer units. -/
abbrev Length := Int

/-- Modelled from the spec: a `Linear` value is an absolute length plus a
relative percentage, `a + b%` (spec section 3). -/
structure Linear where
  abs : Int
  rel : Int
  deriving DecidableEq, Repr

/-- Modelled from the spec: the implicit widening `Length -> Linear`
(spec section 4.1). -/
def Linear.ofLength (v : Int) : Linear := ⟨v, 0⟩

/-- Modelled from the spec: the implicit widening `Relative -> Linear`
(spec section 4.1). -/
def Linear.ofRelative (v : Int) : Linear := ⟨0, v⟩

/-- The zero linear value, mirroring Rust's `Linear::default()`. -/
def Linear.default : Linear := ⟨0, 0⟩

/-- Stacking/layouting directions; `stack` defaults to `Dir::TTB`. -/
inductive Dir
  | ltr
  | rtl
  | ttb
  | btt
  deriving DecidableEq, Repr

/-- The two specification axes used by alignment values. -/
inductive SpecAxis
  | horizontal
  | vertical
  deriving DecidableEq, Repr

/-- Modelled from the spec: alignment values; `left`/`right` carry the
horizontal axis, `top`/`bottom` the vertical axis, and `center` has no
fixed axis (spec section 4.4). -/
inductive Align
  | left
  | center
  | right
  | top
  | bottom
  deriving DecidableEq, Repr

/-- Modelled from the spec: the declared axis of an alignment value
(spec section 4.4, "its declared axis"). -/
def Align.axis : Align → Option SpecAxis
  | .left => some .horizontal
  | .right => some .horizontal
  | .top => some .vertical
  | .bottom => some .vertical
  | .center => none

/-- Track sizing policy for one grid column or row
(`TrackSizing` in the source). -/
inductive TrackSizing
  | auto
  | linear (v : Linear)
  | fractional (v : Int)
  deriving DecidableEq, Repr

/-- Abstract content node (`Node` in the source); its internal structure is
external to this core, so it is modelled as an opaque identifier. -/
structure Node where
  id : Nat
  deriving DecidableEq, Repr

/-- Paper class of a page (`PaperClass`); the source distinguishes a
`Custom` class from preset classes. -/
inductive PaperClass
  | custom
  | base
  deriving DecidableEq, Repr

/-- Width and height of a page (`Size`). -/
structure Size where
  w : Length
  h : Length
  deriving DecidableEq, Repr

/-- Four independently settable sides (`Sides<T>` in the source). -/
structure Sides (α : Type) where
  left : α
  top : α
  right : α
  bottom : α
  deriving DecidableEq, Repr

/-- `Sides::splat`: the same value on all four sides. -/
def Sides.splat (a : α) : Sides α := ⟨a, a, a, a⟩

/-- `Sides::new(left, top, right, bottom)`. -/
def Sides.new (l t r b : α) : Sides α := ⟨l, t, r, b⟩

/-- A per-axis pair (`Spec<T>` in the source); `Spec::new(x, y)` receives
the column/horizontal component first. -/
structure Spec (α : Type) where
  x : α
  y : α
  deriving DecidableEq, Repr

/-- `Spec::new`. -/
def Spec.new (x y : α) : Spec α := ⟨x, y⟩

/-- Modelled from the spec: a paper preset with a class and a size
(spec section 4.3); sizes use the same abstract units as `Length`. -/
structure Paper where
  «class» : PaperClass
  w : Length
  h : Length
  deriving DecidableEq, Repr

/-- `Paper::size`. -/
def Paper.size (p : Paper) : Size := ⟨p.w, p.h⟩

/-- The A4 paper preset (210 x 297 in abstract millimetre units). -/
def Paper.a4 : Paper := ⟨PaperClass.base, 210, 297⟩

/-- The US letter paper preset. -/
def Paper.us_letter : Paper := ⟨PaperClass.base, 216, 279⟩

/-- Modelled from the spec: `Paper::from_name` looks a paper preset up by
name, returning nothing on an unrecognized name (spec section 4.3). -/
def Paper.from_name : String → Option Paper
  | "a4" => some Paper.a4
  | "us-letter" => some Paper.us_letter
  | _ => none

/-- Page sub-record of the style context (`PageStyle`): paper class, size,
and four optional margins. -/
structure PageStyle where
  «class» : PaperClass
  size : Size
  margins : Sides (Option Linear)
  deriving DecidableEq, Repr

/-- Text sub-record of the style context; holds the horizontal alignment. -/
structure TextStyle where
  align : Align
  deriving DecidableEq, Repr

/-- Paragraph sub-record of the style context; holds the vertical
alignment. -/
structure ParStyle where
  align : Align
  deriving DecidableEq, Repr

/-- The cascading style context (`StyleContext`): page, text and paragraph
sub-records (spec section 3). -/
structure Style where
  page : PageStyle
  text : TextStyle
  par : ParStyle
  deriving DecidableEq, Repr

/-- A sample initial style, used to instantiate theorems at a concrete
style context. -/
def Style.default : Style :=
  { page := { «class» := PaperClass.base, size := Paper.a4.size,
              margins := Sides.splat none },
    text := { align := Align.left },
    par := { align := Align.top } }

/-- A content node lowered to block form; `to_block` is an external
collaborator that captures the current style at lowering time
(spec sections 3 and 6). -/
structure BlockNode where
  node : Node
  style : Style
  deriving DecidableEq, Repr

/-- `Node::to_block(&style)`: lower content against the current style. -/
def Node.to_block (n : Node) (s : Style) : BlockNode := ⟨n, s⟩

/-- The dynamic value union (`Value`, spec section 3). Alignment and
direction values are carried by dedicated variants, modelled from the
spec, since the spec does not name the kind that carries them. -/
inductive Value
  | none
  | auto
  | bool (b : Bool)
  | int (i : Int)
  | length (v : Int)
  | relative (v : Int)
  | linear (v : Linear)
  | fractional (v : Int)
  | str (s : String)
  | array (vs : List Value)
  | node (n : Node)
  | align (a : Align)
  | dir (d : Dir)

/-- Evaluation errors (spec section 7): cast errors carrying the
expected-kinds description, missing required arguments, and invalid
domain literals such as an unrecognized paper name. -/
inductive EvalError
  | castError (expected : String)
  | missingArgument (role : String)
  | invalidLiteral (msg : String)
  deriving DecidableEq, Repr

/-- Modelled from the spec: the arguments of one directive call, an ordered
sequence of unconsumed positional values plus named values with unique
names (spec section 3, `Args`). -/
structure Args where
  pos : List Value
  named : List (String × Value)

/-- Remove the entry with the given name from a named-argument list,
returning its value and the remaining entries. -/
def Args.takeNamed : List (String × Value) → String → Option (Value × List (String × Value))
  | [], _ => none
  | (k, v) :: rest, key =>
    if k = key then some (v, rest)
    else
      match Args.takeNamed rest key with
      | some (v2, rest2) => some (v2, (k, v) :: rest2)
      | none => none

/-- Modelled from the spec: `Args::named(key)` looks up and removes a named
argument and casts it; a present but uncastable value is a cast error,
an absent key is no error (spec section 4.2). -/
def Args.namedA (cast : Value → Option α) (expected key : String) (args : Args) :
    Except EvalError (Option α × Args) :=
  match Args.takeNamed args.named key with
  | Option.none => Except.ok (Option.none, args)
  | some (v, rest) =>
    match cast v with
    | some a => Except.ok (some a, { args with named := rest })
    | Option.none => Except.error (EvalError.castError expected)

/-- Modelled from the spec: `Args::eat()` attempts to consume the next
unconsumed positional argument; on a cast failure the argument is left
unconsumed (spec section 4.2). -/
def Args.eatA (cast : Value → Option α) (args : Args) : Option α × Args :=
  match args.pos with
  | [] => (Option.none, args)
  | v :: rest =>
    match cast v with
    | some a => (some a, { args with pos := rest })
    | Option.none => (Option.none, args)

/-- Modelled from the spec: `Args::expect(role)` is like `eat` but fails
with a missing-required-argument error when no positional argument
remains or the next one cannot cast (spec section 4.2). -/
def Args.expectA (cast : Value → Option α) (role : String) (args : Args) :
    Except EvalError (α × Args) :=
  match args.pos with
  | [] => Except.error (EvalError.missingArgument role)
  | v :: rest =>
    match cast v with
    | some a => Except.ok (a, { args with pos := rest })
    | Option.none => Except.error (EvalError.missingArgument role)

/-- Modelled from the spec: `Args::all()` drains every remaining positional
argument in order, failing eagerly on the first uncastable element
(spec section 4.2). -/
def Args.allA (cast : Value → Option α) (expected : String) : List Value → Except EvalError (List α)
  | [] => Except.ok []
  | v :: rest =>
    match cast v with
    | Option.none => Except.error (EvalError.castError expected)
    | some a =>
      match Args.allA cast expected rest with
      | Except.ok as2 => Except.ok (a :: as2)
      | Except.error e => Except.error e

/-- Modelled from the spec: casting to `Str` accepts only string values. -/
def castStr : Value → Option String
  | .str s => some s
  | _ => Option.none

/-- Modelled from the spec: casting to `Bool` accepts only boolean
values. -/
def castBool : Value → Option Bool
  | .bool b => some b
  | _ => Option.none

/-- Modelled from the spec: casting to `Length` accepts only length
values. -/
def castLength : Value → Option Length
  | .length v => some v
  | _ => Option.none

/-- Modelled from the spec: casting to `Linear` accepts lengths, relative
percentages, and linear values (spec section 4.1 widening rules). -/
def castLinear : Value → Option Linear
  | .length v => some (Linear.ofLength v)
  | .relative v => some (Linear.ofRelative v)
  | .linear v => some v
  | _ => Option.none

/-- Modelled from the spec: casting to `Align` accepts alignment values. -/
def castAlign : Value → Option Align
  | .align a => some a
  | _ => Option.none

/-- Modelled from the spec: casting to `Dir` accepts direction values. -/
def castDir : Value → Option Dir
  | .dir d => some d
  | _ => Option.none

/-- Modelled from the spec: casting to `Node` accepts content-node
values. -/
def castNode : Value → Option Node
  | .node n => some n
  | _ => Option.none

/-- The `Child` enum local to `stack`: an explicit spacing amount or any
content node (source lines 173-176). -/
inductive Child
  | spacing (v : Linear)
  | any (n : Node)
  deriving Repr

/-- The `castable!` rules for `Child` in `stack` (source lines 178-184):
lengths, relatives and linears become explicit spacing, nodes become
content children. -/
def castChild : Value → Option Child
  | .length v => some (Child.spacing (Linear.ofLength v))
  | .relative v => some (Child.spacing (Linear.ofRelative v))
  | .linear v => some (Child.spacing v)
  | .node n => some (Child.any n)
  | _ => Option.none

/-- The `castable!` rules for a single `TrackSizing` in `grid`
(source lines 230-237). -/
def castTrackSizing : Value → Option TrackSizing
  | .auto => some TrackSizing.auto
  | .length v => some (TrackSizing.linear (Linear.ofLength v))
  | .relative v => some (TrackSizing.linear (Linear.ofRelative v))
  | .linear v => some (TrackSizing.linear v)
  | .fractional v => some (TrackSizing.fractional v)
  | _ => Option.none

/-- The `castable!` rules for `Vec<TrackSizing>` in `grid` (source lines
216-228): single values become one track, an integer `count` becomes
`count.max(0)` auto tracks, and an array casts element-wise, dropping
elements that fail to cast. -/
def castTracks : Value → Option (List TrackSizing)
  | .auto => some [TrackSizing.auto]
  | .length v => some [TrackSizing.linear (Linear.ofLength v)]
  | .relative v => some [TrackSizing.linear (Linear.ofRelative v)]
  | .linear v => some [TrackSizing.linear v]
  | .fractional v => some [TrackSizing.fractional v]
  | .int count => some (List.replicate (max count 0).toNat TrackSizing.auto)
  | .array values => some (values.filterMap castTrackSizing)
  | _ => Option.none

/-- One child of a stack node (`StackChild`): explicit spacing, or a block
node together with the paragraph alignment captured at construction
time. -/
inductive StackChild
  | spacing (v : Linear)
  | any (node : BlockNode) (align : Align)
  deriving DecidableEq, Repr

/-- A stack layout node (`StackNode`). -/
structure StackNode where
  dir : Dir
  children : List StackChild
  deriving DecidableEq, Repr

/-- A padding layout node (`PadNode`). -/
structure PadNode where
  padding : Sides Linear
  child : BlockNode
  deriving DecidableEq, Repr

/-- A grid layout node (`GridNode`). -/
structure GridNode where
  tracks : Spec (List TrackSizing)
  gutter : Spec (List TrackSizing)
  children : List BlockNode
  deriving DecidableEq, Repr

/-- A block-level layout node produced by a directive. -/
inductive BlockLayout
  | stack (s : StackNode)
  | grid (g : GridNode)
  | pad (p : PadNode)
  deriving DecidableEq, Repr

/-- The value a directive returns: `Value::None` for style directives,
or `Value::block(node)` wrapping a produced layout node. -/
inductive OutValue
  | none
  | block (n : BlockLayout)
  deriving DecidableEq, Repr

/-- The extracted arguments of `page` (source lines 9-24). -/
structure PageArgs where
  paper : Option Paper
  width : Option Length
  height : Option Length
  margins : Option Linear
  left : Option Linear
  top : Option Linear
  right : Option Linear
  bottom : Option Linear
  flip : Option Bool

/-- Argument extraction phase of `page` (source lines 9-24): the named
`paper` or, failing that, a positional string, is looked up as a paper
preset; then width, height, margins, the four sides, and flip are read
as named arguments. Every failure of `page` happens here. -/
def pageArgs (args : Args) : Except EvalError PageArgs := do
  let (paperName, args) ← Args.namedA castStr "string" "paper" args
  let (paperName, args) :=
    match paperName with
    | some s => (some s, args)
    | Option.none => Args.eatA castStr args
  let paper ←
    match paperName with
    | some name =>
      match Paper.from_name name with
      | Option.none => Except.error (EvalError.invalidLiteral "invalid paper name")
      | some p => Except.ok (some p)
    | Option.none => Except.ok Option.none
  let (width, args) ← Args.namedA castLength "length" "width" args
  let (height, args) ← Args.namedA castLength "length" "height" args
  let (margins, args) ← Args.namedA castLinear "linear" "margins" args
  let (left, args) ← Args.namedA castLinear "linear" "left" args
  let (top, args) ← Args.namedA castLinear "linear" "top" args
  let (right, args) ← Args.namedA castLinear "linear" "right" args
  let (bottom, args) ← Args.namedA castLinear "linear" "bottom" args
  let (flip, _) ← Args.namedA castBool "boolean" "flip" args
  pure ⟨paper, width, height, margins, left, top, right, bottom, flip⟩

/-- Mutation phase of `page` (source lines 26-65), applied in source
order: paper preset, width, height, uniform margins, individual sides,
and finally flip, which swaps the fully resolved size. -/
def pageApply (pg : PageStyle) (a : PageArgs) : PageStyle :=
  let pg :=
    match a.paper with
    | some p => { pg with «class» := p.«class», size := p.size }
    | Option.none => pg
  let pg :=
    match a.width with
    | some w => { pg with «class» := PaperClass.custom, size := { pg.size with w := w } }
    | Option.none => pg
  let pg :=
    match a.height with
    | some h => { pg with «class» := PaperClass.custom, size := { pg.size with h := h } }
    | Option.none => pg
  let pg :=
    match a.margins with
    | some m => { pg with margins := Sides.splat (some m) }
    | Option.none => pg
  let pg :=
    match a.left with
    | some l => { pg with margins := { pg.margins with left := some l } }
    | Option.none => pg
  let pg :=
    match a.top with
    | some t => { pg with margins := { pg.margins with top := some t } }
    | Option.none => pg
  let pg :=
    match a.right with
    | some r => { pg with margins := { pg.margins with right := some r } }
    | Option.none => pg
  let pg :=
    match a.bottom with
    | some b => { pg with margins := { pg.margins with bottom := some b } }
    | Option.none => pg
  if a.flip.getD false then { pg with size := ⟨pg.size.h, pg.size.w⟩ } else pg

/-- `page`: configure pages (source lines 8-68). The current style is
threaded explicitly; on an error the style reached so far is returned
alongside the error, mirroring that failures never roll style back. -/
def page (style : Style) (args : Args) : Except EvalError OutValue × Style :=
  match pageArgs args with
  | Except.error e => (Except.error e, style)
  | Except.ok a => (Except.ok OutValue.none, { style with page := pageApply style.page a })

/-- One step of the positional-alignment resolution loop in `align`
(source lines 78-88): a value goes to the horizontal slot if its axis is
horizontal, or it has no fixed axis and that slot is empty; otherwise to
the vertical slot under the same condition; otherwise it is dropped. -/
def alignAssign (h v : Option Align) (a : Align) : Option Align × Option Align :=
  match a.axis with
  | some SpecAxis.horizontal => if h.isNone then (some a, v) else (h, v)
  | some SpecAxis.vertical => if v.isNone then (h, some a) else (h, v)
  | Option.none =>
    if h.isNone then (some a, v)
    else if v.isNone then (h, some a)
    else (h, v)

/-- The resolution loop of `align` over the chained positional values. -/
def alignFold (h v : Option Align) : List Align → Option Align × Option Align
  | [] => (h, v)
  | a :: rest =>
    let (h2, v2) := alignAssign h v a
    alignFold h2 v2 rest

/-- Named-argument extraction of `align` (source lines 75-76). -/
def alignNamed (args : Args) : Except EvalError (Option Align × Option Align) := do
  let (h, args) ← Args.namedA castAlign "alignment" "horizontal" args
  let (v, _) ← Args.namedA castAlign "alignment" "vertical" args
  pure (h, v)

/-- `align`: configure the alignment along the layouting axes (source
lines 71-99): up to two positional values are eaten, the named slots
pre-fill horizontal/vertical, the loop assigns the positional values,
and the results update text (horizontal) and paragraph (vertical)
alignment. -/
def align (style : Style) (args : Args) : Except EvalError OutValue × Style :=
  let (first, args) := Args.eatA castAlign args
  let (second, args) := Args.eatA castAlign args
  match alignNamed args with
  | Except.error e => (Except.error e, style)
  | Except.ok (horizontal, vertical) =>
    let (horizontal, vertical) := alignFold horizontal vertical (first.toList ++ second.toList)
    let style :=
      match horizontal with
      | some h => { style with text := { style.text with align := h } }
      | Option.none => style
    let style :=
      match vertical with
      | some v => { style with par := { style.par with align := v } }
      | Option.none => style
    (Except.ok OutValue.none, style)

/-- Fallible argument extraction of `pad` after the uniform value was
eaten (source lines 152-156). -/
def padArgs (args : Args) :
    Except EvalError (Option Linear × Option Linear × Option Linear × Option Linear × Node) := do
  let (left, args) ← Args.namedA castLinear "linear" "left" args
  let (top, args) ← Args.namedA castLinear "linear" "top" args
  let (right, args) ← Args.namedA castLinear "linear" "right" args
  let (bottom, args) ← Args.namedA castLinear "linear" "bottom" args
  let (body, _) ← Args.expectA castNode "body" args
  pure (left, top, right, bottom, body)

/-- `pad`: pad content at the sides (source lines 150-169): an optional
uniform positional value, per-side named overrides, and a required
body; each side is the override, else the uniform value, else zero. -/
def pad (style : Style) (args : Args) : Except EvalError OutValue × Style :=
  let (all, args) := Args.eatA castLinear args
  match padArgs args with
  | Except.error e => (Except.error e, style)
  | Except.ok (left, top, right, bottom, body) =>
    let padding := Sides.new
      ((left <|> all).getD Linear.default)
      ((top <|> all).getD Linear.default)
      ((right <|> all).getD Linear.default)
      ((bottom <|> all).getD Linear.default)
    (Except.ok (OutValue.block (BlockLayout.pad ⟨padding, body.to_block style⟩)), style)

/-- The child-building loop of `stack` (source lines 193-209): an explicit
spacer is appended and clears the delayed slot; a content child first
flushes the delayed spacer, is appended with the captured paragraph
alignment, and re-arms the delayed slot with the default spacing. -/
def stackChildren (style : Style) (spacing : Option Linear) :
    List Child → Option Linear → List StackChild
  | [], _ => []
  | Child.spacing v :: rest, _ =>
    StackChild.spacing v :: stackChildren style spacing rest Option.none
  | Child.any t :: rest, delayed =>
    (match delayed with
     | some v => [StackChild.spacing v]
     | Option.none => []) ++
      StackChild.any (t.to_block style) style.par.align ::
        stackChildren style spacing rest spacing

/-- Fallible argument extraction of `stack` (source lines 186-193). -/
def stackArgs (args : Args) : Except EvalError (Dir × Option Linear × List Child) := do
  let (dir, args) ← Args.namedA castDir "direction" "dir" args
  let (spacing, args) ← Args.namedA castLinear "linear" "spacing" args
  let children ← Args.allA castChild "linear or template" args.pos
  pure (dir.getD Dir.ttb, spacing, children)

/-- `stack`: stack children along an axis (source lines 172-212). -/
def stack (style : Style) (args : Args) : Except EvalError OutValue × Style :=
  match stackArgs args with
  | Except.error e => (Except.error e, style)
  | Except.ok (dir, spacing, children) =>
    (Except.ok (OutValue.block (BlockLayout.stack
      ⟨dir, stackChildren style spacing children Option.none⟩)), style)

/-- Fallible argument extraction and assembly of `grid`
(source lines 239-253). -/
def gridArgs (style : Style) (args : Args) : Except EvalError GridNode := do
  let (columns, args) ← Args.namedA castTracks
    "integer or (auto, linear, fractional, or array thereof)" "columns" args
  let (rows, args) ← Args.namedA castTracks
    "integer or (auto, linear, fractional, or array thereof)" "rows" args
  let tracks := Spec.new (columns.getD []) (rows.getD [])
  let (base_gutter, args) ← Args.namedA castTracks
    "integer or (auto, linear, fractional, or array thereof)" "gutter" args
  let base_gutter := base_gutter.getD []
  let (column_gutter, args) ← Args.namedA castTracks
    "integer or (auto, linear, fractional, or array thereof)" "column-gutter" args
  let (row_gutter, args) ← Args.namedA castTracks
    "integer or (auto, linear, fractional, or array thereof)" "row-gutter" args
  let gutter := Spec.new (column_gutter.getD base_gutter) (row_gutter.getD base_gutter)
  let children ← Args.allA castNode "template" args.pos
  pure ⟨tracks, gutter, children.map (fun n => n.to_block style)⟩

/-- `grid`: arrange children into a grid (source lines 215-254). -/
def grid (style : Style) (args : Args) : Except EvalError OutValue × Style :=
  match gridArgs style args with
  | Except.error e => (Except.error e, style)
  | Except.ok g => (Except.ok (OutValue.block (BlockLayout.grid g)), style)

/-! Helper reduction lemmas for the `Except` monad. -/

theorem except_bind_ok (a : α) (f : α → Except ε β) :
    (Except.ok a : Except ε α) >>= f = f a := rfl

theorem except_bind_error (e : ε) (f : α → Except ε β) :
    (Except.error e : Except ε α) >>= f = Except.error e := rfl

theorem except_pure_eq (a : α) : (pure a : Except ε α) = Except.ok a := rfl

/-- C1: `stack` on positional `[content A, content B]` with named default
spacing `S` yields exactly the children
`[A-as-block-with-alignment, Spacing(S), B-as-block-with-alignment]`:
one implicit spacer between the two content children, none leading,
none trailing. -/
theorem stack_default_spacing_between (σ : Style) (a b : Node) (S : Linear) :
    stack σ ⟨[Value.node a, Value.node b], [("spacing", Value.linear S)]⟩ =
      (Except.ok (OutValue.block (BlockLayout.stack
        ⟨Dir.ttb,
         [StackChild.any (a.to_block σ) σ.par.align,
          StackChild.spacing S,
          StackChild.any (b.to_block σ) σ.par.align]⟩)), σ) := rfl

/-- C2: `stack` on positional `[content A, spacing X, content B]` with
named default spacing `S` yields `[A, Spacing(X), B]`: the explicit
spacer suppresses the pending default spacer, and no `Spacing(S)` child
stemming from the default appears. -/
theorem stack_explicit_spacing_suppresses_default (σ : Style) (a b : Node) (X S : Linear) :
    stack σ ⟨[Value.node a, Value.linear X, Value.node b],
             [("spacing", Value.linear S)]⟩ =
      (Except.ok (OutValue.block (BlockLayout.stack
        ⟨Dir.ttb,
         [StackChild.any (a.to_block σ) σ.par.align,
          StackChild.spacing X,
          StackChild.any (b.to_block σ) σ.par.align]⟩)), σ) := rfl

/-- C3: in `page`, style transitions apply in the fixed order
preset, width/height, uniform margins, individual margins, flip,
regardless of named-argument order: a preset plus an explicit width
gives the explicit width, the preset's height, and the custom class
(in either argument order); a preset plus `flip: true` swaps the fully
resolved size; an individual side margin beats a uniform `margins`
value for that side (in either argument order). -/
theorem page_override_order (σ : Style) (w : Length) (m l : Linear) :
    page σ ⟨[], [("paper", Value.str "a4"), ("width", Value.length w)]⟩ =
      (Except.ok OutValue.none,
       { σ with page := { σ.page with
                            «class» := PaperClass.custom
                            size := ⟨w, Paper.a4.h⟩ } })
    ∧ page σ ⟨[], [("width", Value.length w), ("paper", Value.str "a4")]⟩ =
        page σ ⟨[], [("paper", Value.str "a4"), ("width", Value.length w)]⟩
    ∧ page σ ⟨[], [("paper", Value.str "a4"), ("flip", Value.bool true)]⟩ =
        (Except.ok OutValue.none,
         { σ with page := { σ.page with
                              «class» := Paper.a4.«class»
                              size := ⟨Paper.a4.h, Paper.a4.w⟩ } })
    ∧ page σ ⟨[], [("margins", Value.linear m), ("left", Value.linear l)]⟩ =
        (Except.ok OutValue.none,
         { σ with page := { σ.page with
                              margins := Sides.new (some l) (some m) (some m) (some m) } })
    ∧ page σ ⟨[], [("left", Value.linear l), ("margins", Value.linear m)]⟩ =
        page σ ⟨[], [("margins", Value.linear m), ("left", Value.linear l)]⟩ :=
  ⟨rfl, rfl, rfl, rfl, rfl⟩

/-- C6: for positional `align` arguments with declared axes, the resulting
style assignment is order-independent: `align(top, left)` and
`align(left, top)` leave the same text (horizontal) and paragraph
(vertical) alignment, namely left and top. -/
theorem align_axis_order_independent (σ : Style) :
    align σ ⟨[Value.align Align.top, Value.align Align.left], []⟩ =
      align σ ⟨[Value.align Align.left, Value.align Align.top], []⟩
    ∧ align σ ⟨[Value.align Align.top, Value.align Align.left], []⟩ =
        (Except.ok OutValue.none,
         { σ with
             text := { σ.text with align := Align.left }
             par := { σ.par with align := Align.top } }) :=
  ⟨rfl, rfl⟩

/-- C7: in `grid`, a single named `gutter` supplies the gutter track list
for both axes; with a length gutter `g` and no per-axis override both
gutters are `[Linear(g)]`, and a `column-gutter` override replaces the
column gutter only, the row gutter keeping the base value. -/
theorem grid_gutter_resolution (σ : Style) (g c : Int) :
    grid σ ⟨[], [("gutter", Value.length g)]⟩ =
      (Except.ok (OutValue.block (BlockLayout.grid
        ⟨Spec.new [] [],
         Spec.new [TrackSizing.linear (Linear.ofLength g)]
                  [TrackSizing.linear (Linear.ofLength g)],
         []⟩)), σ)
    ∧ grid σ ⟨[], [("gutter", Value.length g), ("column-gutter", Value.fractional c)]⟩ =
        (Except.ok (OutValue.block (BlockLayout.grid
          ⟨Spec.new [] [],
           Spec.new [TrackSizing.fractional c]
                    [TrackSizing.linear (Linear.ofLength g)],
           []⟩)), σ) :=
  ⟨rfl, rfl⟩

/-- C8: `pad` with only a uniform positional value L gives all four sides
equal to L; with neither a uniform nor per-side values every side is
zero; a per-side named value wins over the uniform value for that
side. -/
theorem pad_uniform_sides (σ : Style) (L l : Linear) (b : Node) :
    pad σ ⟨[Value.linear L, Value.node b], []⟩ =
      (Except.ok (OutValue.block (BlockLayout.pad
        ⟨Sides.new L L L L, b.to_block σ⟩)), σ)
    ∧ pad σ ⟨[Value.node b], []⟩ =
        (Except.ok (OutValue.block (BlockLayout.pad
          ⟨Sides.new Linear.default Linear.default Linear.default Linear.default,
           b.to_block σ⟩)), σ)
    ∧ pad σ ⟨[Value.linear L, Value.node b], [("left", Value.linear l)]⟩ =
        (Except.ok (OutValue.block (BlockLayout.pad
          ⟨Sides.new l L L L, b.to_block σ⟩)), σ) :=
  ⟨rfl, rfl, rfl⟩

/-- C4: casting an integer `n` as a grid track specification yields
`max n 0` auto tracks: exactly `n` `Auto` tracks when `n` is
non-negative and exactly zero tracks, not an error, when `n` is
negative. -/
theorem grid_int_repeat_clamped (n : Int) :
    castTracks (Value.int n) = some (List.replicate (max n 0).toNat TrackSizing.auto)
    ∧ (0 ≤ n →
        castTracks (Value.int n) = some (List.replicate n.toNat TrackSizing.auto))
    ∧ (n < 0 → castTracks (Value.int n) = some []) := by
  refine ⟨rfl, fun h => ?_, fun h => ?_⟩
  · simp [castTracks, max_eq_left h]
  · simp [castTracks, max_eq_right h.le]

/-- Closed instance of `grid_int_repeat_clamped` at 3 and -2. -/
theorem grid_int_repeat_clamped_witness :
    castTracks (Value.int 3) = some (List.replicate (Int.toNat 3) TrackSizing.auto)
    ∧ castTracks (Value.int (-2)) = some [] :=
  ⟨(grid_int_repeat_clamped 3).2.1 (by decide), (grid_int_repeat_clamped (-2)).2.2 (by decide)⟩

/-- C5: casting an array as a grid track specification never fails, casts
each element independently, and silently drops any element that fails
to cast, keeping the castable elements in order; in particular
`(auto, 1fr, 2fr)` yields `[Auto, Fractional(1), Fractional(2)]`. -/
theorem grid_array_cast_lenient (vs vs1 vs2 : List Value) (v : Value)
    (hv : castTrackSizing v = Option.none) :
    castTracks (Value.array [Value.auto, Value.fractional 1, Value.fractional 2]) =
      some [TrackSizing.auto, TrackSizing.fractional 1, TrackSizing.fractional 2]
    ∧ (castTracks (Value.array vs)).isSome = true
    ∧ castTracks (Value.array (vs1 ++ v :: vs2)) = castTracks (Value.array (vs1 ++ vs2)) := by
  refine ⟨rfl, by simp [castTracks], ?_⟩
  simp [castTracks, List.filterMap_append, List.filterMap_cons, hv]

/-- Closed instance of `grid_array_cast_lenient`: a string element inside
a track array is silently dropped. -/
theorem grid_array_cast_lenient_witness :
    castTracks (Value.array [Value.auto, Value.str "x", Value.fractional 1]) =
      castTracks (Value.array [Value.auto, Value.fractional 1]) :=
  (grid_array_cast_lenient [] [Value.auto] [Value.fractional 1] (Value.str "x") rfl).2.2

/-- C9: `page` is atomic with respect to the style context: whenever it
returns an error, the style it leaves behind is exactly the input
style, because every fallible step precedes the first style write. -/
theorem page_error_leaves_style (σ : Style) (args : Args) (e : EvalError)
    (h : (page σ args).1 = Except.error e) : (page σ args).2 = σ := by
  rcases hpa : pageArgs args with e2 | a
  · simp [page, hpa]
  · simp [page, hpa] at h

/-- Closed instance of `page_error_leaves_style`: an invalid paper name
fails and leaves the sample style untouched. -/
theorem page_error_leaves_style_witness :
    (page Style.default ⟨[], [("paper", Value.str "bogus")]⟩).2 = Style.default :=
  page_error_leaves_style Style.default ⟨[], [("paper", Value.str "bogus")]⟩
    (EvalError.invalidLiteral "invalid paper name") rfl

/-- C10: when no named `paper` argument is supplied, `page` consumes a
positional string and looks it up as a paper name, applying the preset
on success and failing with the invalid-paper-name error on an
unrecognized name; a named `paper` argument takes precedence over the
positional string. -/
theorem page_positional_paper (σ : Style) (s : String) :
    (page σ ⟨[Value.str s], []⟩ =
      match Paper.from_name s with
      | some p =>
        (Except.ok OutValue.none,
         { σ with page := { σ.page with
                              «class» := p.«class»
                              size := p.size } })
      | Option.none => (Except.error (EvalError.invalidLiteral "invalid paper name"), σ))
    ∧ page σ ⟨[Value.str s], [("paper", Value.str "bogus")]⟩ =
        (Except.error (EvalError.invalidLiteral "invalid paper name"), σ) := by
  refine ⟨?_, rfl⟩
  rcases hfn : Paper.from_name s with _ | p <;>
    simp [page, pageArgs, Args.namedA, Args.takeNamed, Args.eatA, castStr, hfn,
      except_bind_ok, except_bind_error, except_pure_eq, pageApply]
